import Mathlib

/-!
Verification of the `tiny` static-site/template helper (Go).

This file gives a shallow embedding, in Lean 4, of the parts of the
repository that the specification's claims talk about: the error type and
`ErrorFromErr` (errors.go), `SetDataHandler` and the page table (site.go),
the metadata merge (both the struct-based and the map-based versions of
`getPageMetaData`), the error-code re-mapping done by `NewSite` together with
`handleError`, the reflection-based template functions `eq`, `EqualAny`,
`IsEmpty`, `Default` and `Coalesce` (funcs package), `parseTemplate`, the
`AuthRequired` middleware, and the static-site generator middleware
(staticsite.go).

Go machine integers are modelled as `Int`/`Nat`; where a Go conversion can
overflow (`int(uint64)`), the wrap-around is made explicit.  Go maps are
modelled as association lists with insert-or-replace update.  Go code that
calls out to the standard library for template parsing or regular-expression
matching takes those facilities as explicit function parameters; the pure
path-manipulation helpers `path.Clean`, `path.Base`, `path.Dir`, `path.Ext`
and `filepath.Join` (on a "/"-separated platform) are implemented directly.

The file is organised as definitions first (the embedding), then helper
lemmas, then one theorem per claim of the specification review, each with a
witness evaluating it at a concrete input where the theorem carries
hypotheses.
-/

/-! ## Association lists (Go maps) -/

/-- Lookup in an association list: the model of reading a Go map key. -/
def lookupA {α β : Type _} [DecidableEq α] : List (α × β) → α → Option β
  | [], _ => none
  | (k', v) :: rest, k => if k = k' then some v else lookupA rest k

/-- Insert-or-replace in an association list: the model of a Go map assignment
`m[k] = v`. -/
def insertA {α β : Type _} [DecidableEq α] : List (α × β) → α → β → List (α × β)
  | [], k, v => [(k, v)]
  | (k', v') :: rest, k, v =>
    if k = k' then (k, v) :: rest else (k', v') :: insertA rest k v

/-!
Verification of the `tiny` static-site/template helper (Go).

This file gives a shallow embedding, in Lean 4, of the parts of the
repository that the specification's claims talk about: the error type and
`ErrorFromErr` (errors.go), `SetDataHandler` and the page table (site.go),
the metadata merge (both the struct-based and the map-based versions of
`getPageMetaData`), the error-code re-mapping done by `NewSite` together with
`handleError`, the reflection-based template functions `eq`, `EqualAny`,
`IsEmpty`, `Default` and `Coalesce` (funcs package), `parseTemplate`, the
`AuthRequired` middleware, and the static-site generator middleware
(staticsite.go).

Go machine integers are modelled as `Int`/`Nat`; where a Go conversion can
overflow (`int(uint64)`), the wrap-around is made explicit.  Go maps are
modelled as association lists with insert-or-replace update.  Go code that
calls out to the standard library for template parsing or regular-expression
matching takes those facilities as explicit function parameters; the pure
path-manipulation helpers `path.Clean`, `path.Base`, `path.Dir`, `path.Ext`
and `filepath.Join` (on a "/"-separated platform) are implemented directly.
-/

/-- The `tiny.Error` struct: an HTTP-style status code with a message. -/
structure TinyError where
  code : Int
  msg : String
  deriving DecidableEq, Repr

/-- `NewError(code, msg)` (the `fmt.Sprintf` call with no variadic arguments
is the identity on the message). -/
def NewError (code : Int) (msg : String) : TinyError := ⟨code, msg⟩

/-- `(err Error) Code()` -/
def TinyError.codeOf (e : TinyError) : Int := e.code

/-- Go's conversion `int(u)` of a `uint64`/`uint` value `u` (< 2^64) to a
signed 64-bit `int`: values below 2^63 are unchanged, larger ones wrap. -/
def intOfUint64 (u : Nat) : Int :=
  if u < 2 ^ 63 then (u : Int) else (u : Int) - 2 ^ 64

/-- The shapes of `error` values that `ErrorFromErr`'s type switch
distinguishes: a `tiny.Error` itself, an error exposing a `Code()` method of
one of the five accepted integer types, or any other error.  Payload
well-formedness (e.g. a `uint32` code being below 2^32) is stated as a
hypothesis where needed. -/
inductive GoErrInput where
  | tinyErr (e : TinyError)
  | codeInt32 (code : Int) (msg : String)
  | codeUint32 (code : Nat) (msg : String)
  | codeInt64 (code : Int) (msg : String)
  | codeUint64 (code : Nat) (msg : String)
  | codeUint (code : Nat) (msg : String)
  | plain (msg : String)
  deriving DecidableEq, Repr

/-- `err.Error()` for each input shape. -/
def GoErrInput.message : GoErrInput → String
  | .tinyErr e => e.msg
  | .codeInt32 _ m => m
  | .codeUint32 _ m => m
  | .codeInt64 _ m => m
  | .codeUint64 _ m => m
  | .codeUint _ m => m
  | .plain m => m

/-- `ErrorFromErr` (errors.go lines 30-46): return a `tiny.Error` unchanged;
otherwise take the code from a `Code()` method of type `int32`, `uint32`,
`int64`, `uint64` or `uint`, converting it with Go's `int(...)`; otherwise
use `http.StatusInternalServerError` (500). -/
def ErrorFromErr : GoErrInput → TinyError
  | .tinyErr e => e
  | .codeInt32 c m => NewError c m
  | .codeUint32 c m => NewError (c : Int) m
  | .codeInt64 c m => NewError c m
  | .codeUint64 c m => NewError (intOfUint64 c) m
  | .codeUint c m => NewError (intOfUint64 c) m
  | .plain m => NewError 500 m

/-! ## site.go: pages and `SetDataHandler`

```go
type Page struct {
  Path string; Layout string; Components []string; MetaData MetaData
  Auth bool; Data ...; DelimLeft, DelimRight string; DataHandler DataHandler
  embed bool
}
func (site *Site) SetDataHandler(name string, h DataHandler) error
```

The metadata value type and the data-handler function type are abstract type
parameters. -/

/-- A configured page (site.go / the map-metadata version in the funcs.go
document): metadata is an association list over an abstract value type `V`,
and the data handler is an abstract `H` (`none` models a nil handler). -/
structure GoPage (V H : Type _) where
  path : String
  layout : String
  components : List String
  metaData : List (String × V)
  auth : Bool
  delimLeft : String
  delimRight : String
  data : Option V
  dataHandler : Option H
  embed : Bool
  deriving DecidableEq, Repr

/-- `SetDataHandler` (site.go lines 307-317): look the page up; when missing,
return the 404 "page not found" error and leave the page table untouched;
otherwise replace the page's `DataHandler` field and store the page back. -/
def SetDataHandler {V H : Type _} (pages : List (String × GoPage V H))
    (name : String) (h : H) :
    Except TinyError Unit × List (String × GoPage V H) :=
  match lookupA pages name with
  | none => (Except.error (NewError 404 "page not found"), pages)
  | some p => (Except.ok (), insertA pages name { p with dataHandler := some h })

/-! ## The struct-based metadata merge (site.go lines 350-397)

```go
type MetaData struct { Version, Lang, SiteName, Title, Domain, BaseURL,
  CanonicalURL string; KeyWords []string; Author, Type, Image, Description string }
func (site *Site) getPageMetaData(name string) MetaData
```
-/

/-- The struct-based `MetaData` (site.go lines 128-141). -/
structure MetaDataS where
  version : String
  lang : String
  siteName : String
  title : String
  domain : String
  baseURL : String
  canonicalURL : String
  keyWords : List String
  author : String
  type : String
  image : String
  description : String
  deriving DecidableEq, Repr

/-- A page as the struct-based `getPageMetaData` sees it: only its metadata
matters. -/
structure PageS where
  metaData : MetaDataS
  deriving DecidableEq, Repr

/-- The body of the struct-based merge (site.go lines 356-396).  The source
is a sequence of assignments `meta := page.MetaData`, then
`meta.Domain = site.MetaData.Domain` (and `SiteName`, `BaseURL`), then for
each remaining field `if meta.F == "" { meta.F = site.MetaData.F }` (for
`KeyWords`, the emptiness test is `len(meta.KeyWords) == 0` and the
assignment is `meta.KeyWords = append(meta.KeyWords, site.MetaData.KeyWords...)`).
Every statement writes a distinct field and each condition reads only the
field it writes, so the sequence is recorded here field by field.  The
`Author` and `Image` checks appear twice in the source; the second run of
each sees the empty string only when both the page and the site value are
empty and then re-assigns the empty site value, a no-op, so one conditional
per field captures both. -/
def mergeMetaDataS (siteMeta pageMeta : MetaDataS) : MetaDataS where
  domain := siteMeta.domain
  siteName := siteMeta.siteName
  baseURL := siteMeta.baseURL
  image := if pageMeta.image = "" then siteMeta.image else pageMeta.image
  title := if pageMeta.title = "" then siteMeta.title else pageMeta.title
  author := if pageMeta.author = "" then siteMeta.author else pageMeta.author
  keyWords := if pageMeta.keyWords = [] then pageMeta.keyWords ++ siteMeta.keyWords
    else pageMeta.keyWords
  description := if pageMeta.description = "" then siteMeta.description
    else pageMeta.description
  lang := if pageMeta.lang = "" then siteMeta.lang else pageMeta.lang
  canonicalURL := if pageMeta.canonicalURL = "" then siteMeta.canonicalURL
    else pageMeta.canonicalURL
  type := if pageMeta.type = "" then siteMeta.type else pageMeta.type
  version := if pageMeta.version = "" then siteMeta.version else pageMeta.version

/-- The struct-based `getPageMetaData` (site.go lines 350-397): a missing page
name returns the site metadata unchanged, a configured page returns the
merge. -/
def getPageMetaDataS (siteMeta : MetaDataS) (pages : List (String × PageS))
    (name : String) : MetaDataS :=
  match lookupA pages name with
  | none => siteMeta
  | some page => mergeMetaDataS siteMeta page.metaData

/-! ## The map-based metadata merge (funcs.go document 2, lines 528-544)

```go
func (site *Site) getPageMetaData(name string) MetaData {
  page, ok := site.Pages[name]
  if !ok { return site.MetaData }
  if page.MetaData == nil { page.MetaData = make(MetaData) }
  for k, v := range site.MetaData {
    if _, ok := page.MetaData[k]; !ok { page.MetaData[k] = v }
  }
  return page.MetaData
}
```
-/

/-- One step of the map-based merge loop: add the site entry only when the
page map does not define the key. -/
def addIfMissing {V : Type _} (m : List (String × V)) (kv : String × V) :
    List (String × V) :=
  match lookupA m kv.1 with
  | some _ => m
  | none => insertA m kv.1 kv.2

/-- The map-based `getPageMetaData`: for a configured page, fold the site
metadata entries into the page metadata, adding only missing keys; for an
unknown name, return the site metadata unchanged. -/
def getPageMetaDataM {V H : Type _} (siteMeta : List (String × V))
    (pages : List (String × GoPage V H)) (name : String) : List (String × V) :=
  match lookupA pages name with
  | none => siteMeta
  | some page => siteMeta.foldl addIfMissing page.metaData

/-!
Verification of the `tiny` static-site/template helper (Go).

This file gives a shallow embedding, in Lean 4, of the parts of the
repository that the specification's claims talk about: the error type and
`ErrorFromErr` (errors.go), `SetDataHandler` and the page table (site.go),
the metadata merge (both the struct-based and the map-based versions of
`getPageMetaData`), the error-code re-mapping done by `NewSite` together with
`handleError`, the reflection-based template functions `eq`, `EqualAny`,
`IsEmpty`, `Default` and `Coalesce` (funcs package), `parseTemplate`, the
`AuthRequired` middleware, and the static-site generator middleware
(staticsite.go).

Go machine integers are modelled as `Int`/`Nat`; where a Go conversion can
overflow (`int(uint64)`), the wrap-around is made explicit.  Go maps are
modelled as association lists with insert-or-replace update.  Go code that
calls out to the standard library for template parsing or regular-expression
matching takes those facilities as explicit function parameters; the pure
path-manipulation helpers `path.Clean`, `path.Base`, `path.Dir`, `path.Ext`
and `filepath.Join` (on a "/"-separated platform) are implemented directly.
-/

/-- The page-name constants (funcs.go document 2, lines 242-243). -/
def PageNotFound : String := "not_found"

/-- The default error page name. -/
def PageError : String := "error"

/-- The default `Errors` table built by `NewSite` (lines 355-358). -/
def defaultErrors : List (String × List Int) :=
  [(PageNotFound, [404]), (PageError, [500])]

/-- The inner loop of the re-mapping: `site.errors[err] = p` for each listed
code. -/
def insertCodes (p : String) (acc : List (Int × String)) :
    List Int → List (Int × String)
  | [] => acc
  | c :: cs => insertCodes p (insertA acc c p) cs

/-- The re-mapping loop of `NewSite` (lines 394-399): invert the
page-to-codes table `Errors` into the internal code-to-page table
`site.errors`. -/
def remapFrom (acc : List (Int × String)) :
    List (String × List Int) → List (Int × String)
  | [] => acc
  | (p, codes) :: rest => remapFrom (insertCodes p acc codes) rest

/-- The internal `site.errors` table, built from an `Errors` configuration. -/
def remapErrors (errs : List (String × List Int)) : List (Int × String) :=
  remapFrom [] errs

/-- The page name selected by `handleError` (lines 594-603): the internal
table's entry for `ErrorFromErr(err).Code()`, defaulting to the error
page. -/
def handleErrorPageName (tbl : List (Int × String)) (err : GoErrInput) : String :=
  match lookupA tbl (ErrorFromErr err).code with
  | some t => t
  | none => PageError

/-! ## Path helpers

The Go standard library's lexical path functions, as used by
`parseTemplate` and the static-site generator, for "/"-separated paths:
`path.Clean`, `path.Base`, `path.Dir`, `path.Ext`, `filepath.Ext` and
`filepath.Join` (on a Unix platform the `filepath` versions coincide with
the `path` ones). -/

/-- The character walk splitting a path into its non-empty "/"-separated
components: `cur` is the segment being read (reversed), `acc` the finished
segments (reversed).  Runs of slashes collapse, so no empty components
arise. -/
def compsAux : List Char → List (List Char) → List Char → List (List Char)
  | cur, acc, [] => (if cur = [] then acc else cur.reverse :: acc).reverse
  | cur, acc, c :: rest =>
    if c = '/' then
      if cur = [] then compsAux [] acc rest
      else compsAux [] (cur.reverse :: acc) rest
    else compsAux (c :: cur) acc rest

/-- The non-empty "/"-separated components of a character list. -/
def compsOf (l : List Char) : List (List Char) := compsAux [] [] l

/-- The stack pass of `path.Clean`: drop `.` components, resolve `..`
against the preceding component (for a rooted path a leading `..` vanishes,
for a relative path it is kept). -/
def cleanStack (rooted : Bool) : List (List Char) → List (List Char) → List (List Char)
  | stack, [] => stack.reverse
  | stack, c :: rest =>
    if c = ['.'] then cleanStack rooted stack rest
    else if c = ['.', '.'] then
      match stack with
      | [] =>
        if rooted then cleanStack rooted [] rest
        else cleanStack rooted [['.', '.']] rest
      | top :: s =>
        if top = ['.', '.'] then cleanStack rooted (c :: top :: s) rest
        else cleanStack rooted s rest
    else cleanStack rooted (c :: stack) rest

/-- `path.Clean`: the shortest lexically-equivalent path ("." for the empty
result of a relative path, "/" kept for a rooted one). -/
def pathClean (p : String) : String :=
  if p = "" then "."
  else
    let l := p.toList
    let rooted := l.head? = some '/'
    let comps := cleanStack rooted [] (compsOf l)
    let s := String.intercalate "/" (comps.map fun c => (⟨c⟩ : String))
    if rooted then "/" ++ s
    else if s = "" then "." else s

/-- `path.Base`: "." for the empty path, "/" for a path of only slashes,
otherwise the last element after dropping trailing slashes. -/
def pathBase (p : String) : String :=
  if p = "" then "."
  else
    let r := p.toList.reverse.dropWhile (· = '/')
    if r = [] then "/"
    else ⟨(r.takeWhile (· ≠ '/')).reverse⟩

/-- The scan of `path.Ext` from the end of the path: collect characters
until a dot (returning the suffix from the dot) or a slash or the start
(returning ""). -/
def extAux : List Char → List Char → String
  | _, [] => ""
  | suff, c :: rest =>
    if c = '/' then ""
    else if c = '.' then ⟨c :: suff⟩
    else extAux (c :: suff) rest

/-- `path.Ext` / `filepath.Ext`: the suffix starting at the final dot of the
last slash-separated element, "" when there is none. -/
def pathExt (p : String) : String := extAux [] p.toList.reverse

/-- `path.Split`'s directory part: everything through the final slash
(empty when the path has no slash). -/
def pathSplitDir (p : String) : String :=
  ⟨(p.toList.reverse.dropWhile (· ≠ '/')).reverse⟩

/-- `path.Dir`: `Clean` of the `Split` directory part. -/
def pathDir (p : String) : String := pathClean (pathSplitDir p)

/-- `filepath.Join` on a "/" platform: ignore empty elements, join with
slashes, `Clean` the result; all-empty input gives "". -/
def filepathJoin (elems : List String) : String :=
  let ne := elems.filter (fun e => ¬e = "")
  if ne = [] then "" else pathClean (String.intercalate "/" ne)

/-!
Verification of the `tiny` static-site/template helper (Go).

This file gives a shallow embedding, in Lean 4, of the parts of the
repository that the specification's claims talk about: the error type and
`ErrorFromErr` (errors.go), `SetDataHandler` and the page table (site.go),
the metadata merge (both the struct-based and the map-based versions of
`getPageMetaData`), the error-code re-mapping done by `NewSite` together with
`handleError`, the reflection-based template functions `eq`, `EqualAny`,
`IsEmpty`, `Default` and `Coalesce` (funcs package), `parseTemplate`, the
`AuthRequired` middleware, and the static-site generator middleware
(staticsite.go).

Go machine integers are modelled as `Int`/`Nat`; where a Go conversion can
overflow (`int(uint64)`), the wrap-around is made explicit.  Go maps are
modelled as association lists with insert-or-replace update.  Go code that
calls out to the standard library for template parsing or regular-expression
matching takes those facilities as explicit function parameters; the pure
path-manipulation helpers `path.Clean`, `path.Base`, `path.Dir`, `path.Ext`
and `filepath.Join` (on a "/"-separated platform) are implemented directly.
-/

/-- The capturing `ResponseWriter`: its `body` is the concatenation of all
chunks written by the wrapped handler. -/
def responseBody (chunks : List String) : String := String.join chunks

/-- The (dir, name) computation of `staticGeneratorHandler`
(part_000 lines 98-120). -/
def staticFileDirName (urlPath : String) : String × String :=
  let dir := pathDir urlPath
  let name := pathBase urlPath
  let sep := "/"
  if dir = sep then
    if name = sep ∨ name = "" then ("", "index.html")
    else ("", if pathExt name = "" then name ++ ".html" else name)
  else
    if name = sep ∨ name = "" then (urlPath, "index.html")
    else (dir, if pathExt name = "" then name ++ ".html" else name)

/-- The full file path the middleware writes for a request path
(part_000 lines 121-129): join the output root with the derived directory,
then with the derived name; when the joined directory is empty the bare name
is used. -/
def staticFilePath (rootDir urlPath : String) : String :=
  let dn := staticFileDirName urlPath
  let dir := filepathJoin [rootDir, dn.1]
  let pth := filepathJoin [dir, dn.2]
  if dir = "" then dn.2 else pth

/-- The writes performed by the middleware built by `staticGeneratorHandler`
for one request (part_000 lines 96-140): one file per allowed-pages pattern
that matches the request path, each holding the full captured body. -/
def staticWrites (rmatch : String → String → Bool) (allowedPages : List String)
    (rootDir urlPath body : String) : List (String × String) :=
  allowedPages.filterMap fun pat =>
    if rmatch pat urlPath then some (staticFilePath rootDir urlPath, body)
    else none

/-- The file name of the amended claim: `index.html` for the root path
(whose `path.Base` is "/"), otherwise the final segment with ".html"
appended when it has no extension. -/
def specStaticName (urlPath : String) : String :=
  let b := pathBase urlPath
  if b = "/" then "index.html"
  else if pathExt b = "" then b ++ ".html" else b

/-- The directory of the amended claim: empty for the root path and for
paths directly under the root, the `path.Dir` otherwise. -/
def specStaticDir (urlPath : String) : String :=
  if pathBase urlPath = "/" then ""
  else if pathDir urlPath = "/" then "" else pathDir urlPath

/-- The full output path of the amended claim. -/
def specStaticPath (root urlPath : String) : String :=
  let d := filepathJoin [root, specStaticDir urlPath]
  if d = "" then specStaticName urlPath
  else filepathJoin [d, specStaticName urlPath]

/-!
Verification of the `tiny` static-site/template helper (Go).

This file gives a shallow embedding, in Lean 4, of the parts of the
repository that the specification's claims talk about: the error type and
`ErrorFromErr` (errors.go), `SetDataHandler` and the page table (site.go),
the metadata merge (both the struct-based and the map-based versions of
`getPageMetaData`), the error-code re-mapping done by `NewSite` together with
`handleError`, the reflection-based template functions `eq`, `EqualAny`,
`IsEmpty`, `Default` and `Coalesce` (funcs package), `parseTemplate`, the
`AuthRequired` middleware, and the static-site generator middleware
(staticsite.go).

Go machine integers are modelled as `Int`/`Nat`; where a Go conversion can
overflow (`int(uint64)`), the wrap-around is made explicit.  Go maps are
modelled as association lists with insert-or-replace update.  Go code that
calls out to the standard library for template parsing or regular-expression
matching takes those facilities as explicit function parameters; the pure
path-manipulation helpers `path.Clean`, `path.Base`, `path.Dir`, `path.Ext`
and `filepath.Join` (on a "/"-separated platform) are implemented directly.
-/

/-- An error escaping `parseTemplate`: either a `tiny.Error` built by the
function itself or an error returned by the template parser. -/
inductive TplErr (E : Type _) where
  | tiny (e : TinyError)
  | parse (e : E)
  deriving DecidableEq, Repr

/-- The site state `parseTemplate` reads: pages, layouts, the template
cache, the `Reload` flag and the site-level delimiters. -/
structure TplSite (V H T : Type _) where
  pages : List (String × GoPage V H)
  layouts : List (String × List String)
  templates : List (String × T)
  reload : Bool
  delimLeft : String
  delimRight : String

/-- The parse path of `parseTemplate` (lines 557-591), reached when no cached
template is returned: resolve the page, build the file list, derive the
template name, parse the common template, then the page files, and cache the
result.  The returned triple is (result, new cache, whether any parsing was
attempted). -/
def parseTemplateFresh {V H T E : Type _}
    (parseCommon : String → Except E T)
    (parseFiles : T → String → String → List String → Except E T)
    (site : TplSite V H T) (name : String) :
    Except (TplErr E) T × List (String × T) × Bool :=
  match lookupA site.pages name with
  | none => (.error (.tiny (NewError 404 "page not found")), site.templates, false)
  | some page =>
    let layouts := (lookupA site.layouts page.layout).getD []
    let files := layouts ++ page.components
    match files with
    | [] => (.error (.tiny (NewError 404 "no templates found")), site.templates, false)
    | f0 :: _ =>
      let tplName0 := if page.layout = "" then pathBase f0 else page.layout
      let tplName := if pathExt tplName0 = "" then tplName0 ++ ".html" else tplName0
      match parseCommon tplName with
      | .error e => (.error (.parse e), site.templates, true)
      | .ok tpl =>
        let delimL := if page.delimLeft = "" ∨ page.delimRight = ""
          then site.delimLeft else page.delimLeft
        let delimR := if page.delimLeft = "" ∨ page.delimRight = ""
          then site.delimRight else page.delimRight
        match parseFiles tpl delimL delimR files with
        | .error e => (.error (.parse e), site.templates, true)
        | .ok tpl2 => (.ok tpl2, insertA site.templates name tpl2, true)

/-- `parseTemplate` (lines 547-556 plus the parse path): return the cached
template for a cached embedded page, or for any cached name when `Reload` is
off; otherwise parse. -/
def parseTemplate {V H T E : Type _}
    (parseCommon : String → Except E T)
    (parseFiles : T → String → String → List String → Except E T)
    (site : TplSite V H T) (name : String) :
    Except (TplErr E) T × List (String × T) × Bool :=
  match lookupA site.templates name with
  | some tpl =>
    if (match lookupA site.pages name with
        | some p => p.embed
        | none => false) then
      (.ok tpl, site.templates, false)
    else if site.reload = false then (.ok tpl, site.templates, false)
    else parseTemplateFresh parseCommon parseFiles site name
  | none => parseTemplateFresh parseCommon parseFiles site name

/-! ## The AuthRequired middleware (middleware.go lines 26-37)

```go
func AuthRequired(loginPath string, authInfoFunc AuthInfoFunc) func(http.Handler) http.Handler {
  return func(h http.Handler) http.Handler {
    return http.HandlerFunc(func(rw http.ResponseWriter, r *http.Request) {
      if _, ok := authInfoFunc(r.Context()); !ok {
        http.Redirect(rw, r, fmt.Sprintf("%s?redirect=%s", loginPath, r.URL.Path), http.StatusFound)
        return
      }
      h.ServeHTTP(rw, r)
    })
  }
}
```
-/

/-- A request as the middleware sees it: a context (abstract type `C`) and a
URL path. -/
structure GoRequest (C : Type _) where
  ctx : C
  urlPath : String

/-- The observable outcome of the middleware-wrapped handler: either the
wrapped handler ran (producing its response) or a redirect was written and
the wrapped handler never ran. -/
inductive MwResult (R : Type _) where
  | handled (r : R)
  | redirect (status : Int) (url : String)
  deriving DecidableEq, Repr

/-- `AuthRequired(loginPath, authInfoFunc)` applied to a wrapped handler `h`
and a request: redirect (302 Found) to the login path with the original path
in the `redirect` query parameter when the context is not authenticated,
invoke `h` otherwise. -/
def AuthRequired {C A R : Type _} (loginPath : String)
    (authInfoFunc : C → A × Bool) (h : GoRequest C → R) (r : GoRequest C) :
    MwResult R :=
  if (authInfoFunc r.ctx).2 = false then
    .redirect 302 (loginPath ++ "?redirect=" ++ r.urlPath)
  else .handled (h r)

/-! ## funcs: reflection-based equality and emptiness

`eq` (funcs.go lines 107-163), `EqualAny` (part_001 lines 38-46), `isTrue`,
`IsEmpty`, `Default`, `Coalesce` (part_001 lines 147-187).

A Go `interface{}` value, after `indirectInterface`, is modelled by `GoVal`:
the six basic kinds `eq` compares (float and complex payloads are the
primitive values, represented as rationals with decidable equality), plus
the nil interface (reflect's zero `Value`) and slices (a non-comparable,
non-basic kind: neither `eq` nor `template.IsTrue` ever inspects a slice's
elements, only its length, so a slice is carried as its length). -/

/-- A Go value as seen through `reflect`: the basic kinds, nil, and
slices. -/
inductive GoVal where
  | vnil
  | vbool (b : Bool)
  | vint (i : Int)
  | vuint (u : Nat)
  | vfloat (f : ℚ)
  | vcomplex (re im : ℚ)
  | vstring (s : String)
  | vslice (len : Nat)
  deriving DecidableEq, Repr

/-- The comparison-kind classification `basicKind` (funcs.go lines 89-105):
nil (the invalid value) and slices fall outside the basic kinds. -/
inductive GKind where
  | invalidKind
  | boolKind
  | complexKind
  | intKind
  | floatKind
  | stringKind
  | uintKind
  deriving DecidableEq, Repr

/-- `basicKind` of a value (the error result for non-basic kinds is dropped
by `eq`, which keeps only the kind). -/
def basicKind : GoVal → GKind
  | .vnil => .invalidKind
  | .vbool _ => .boolKind
  | .vint _ => .intKind
  | .vuint _ => .uintKind
  | .vfloat _ => .floatKind
  | .vcomplex _ _ => .complexKind
  | .vstring _ => .stringKind
  | .vslice _ => .invalidKind

/-- `reflect.Type.Comparable()` for the modelled kinds: only slices are not
comparable. -/
def goComparable : GoVal → Bool
  | .vslice _ => false
  | _ => true

/-- The errors `eq` can return (funcs.go lines 21-25 and the two
"uncomparable type" formats). -/
inductive CmpErr where
  | uncomparable
  | badComparison
  | noComparison
  deriving DecidableEq, Repr

/-- One iteration of `eq`'s loop (funcs.go lines 119-161) for already
basic-kind-classified values `v1` and `v2`: the cross-sign integer special
case, per-kind primitive comparison when the kinds agree, and the default
branch (reached only for two invalid-kind values) comparing against the
zero `Value`. -/
def eqStep : GoVal → GoVal → Except CmpErr Bool
  | .vint i, .vuint u =>
    .ok (decide (0 ≤ i) && decide (i.toNat = u))
  | .vuint u, .vint i =>
    .ok (decide (0 ≤ i) && decide (u = i.toNat))
  | .vbool b1, .vbool b2 => .ok (b1 == b2)
  | .vcomplex r1 i1, .vcomplex r2 i2 => .ok (r1 == r2 && i1 == i2)
  | .vfloat f1, .vfloat f2 => .ok (f1 == f2)
  | .vint i1, .vint i2 => .ok (i1 == i2)
  | .vstring s1, .vstring s2 => .ok (s1 == s2)
  | .vuint u1, .vuint u2 => .ok (u1 == u2)
  | .vnil, .vnil => .ok true
  | .vnil, .vslice _ => .error .uncomparable
  | .vslice _, .vnil => .ok false
  | .vslice _, .vslice _ => .error .uncomparable
  | _, _ => .error .badComparison

/-- `eq`'s loop over the remaining arguments: an error aborts, a successful
comparison returns true immediately, otherwise the loop continues and ends
with false. -/
def eqLoop (v1 : GoVal) : List GoVal → Except CmpErr Bool
  | [] => .ok false
  | a :: rest =>
    match eqStep v1 a with
    | .error e => .error e
    | .ok true => .ok true
    | .ok false => eqLoop v1 rest

/-- `eq(arg1, arg2...)` (funcs.go lines 107-163): an uncomparable non-zero
first argument fails, a missing second argument fails, otherwise the loop
runs. -/
def eqGo (v1 : GoVal) (args : List GoVal) : Except CmpErr Bool :=
  if ¬v1 = .vnil ∧ goComparable v1 = false then .error .uncomparable
  else if args = [] then .error .noComparison
  else eqLoop v1 args

/-- `EqualAny(v, values...)` (part_001 lines 38-46): true when `eq(v, val)`
returns true without error for some `val`. -/
def EqualAny (v : GoVal) (values : List GoVal) : Bool :=
  values.any fun val =>
    match eqGo v [val] with
    | .ok b => b
    | .error _ => false

/-- `template.IsTrue` for the modelled values (truth of the non-zero value
of the type; every modelled kind is assessable, and the invalid value is
false). -/
def isTrueGo : GoVal → Bool
  | .vnil => false
  | .vbool b => b
  | .vint i => decide (¬i = 0)
  | .vuint u => decide (¬u = 0)
  | .vfloat f => decide (¬f = 0)
  | .vcomplex re im => decide (¬(re = 0 ∧ im = 0))
  | .vstring s => decide (0 < s.length)
  | .vslice len => decide (0 < len)

/-- `IsEmpty` (part_001 lines 183-187): the negation of `isTrue`. -/
def IsEmptyGo (v : GoVal) : Bool := !isTrueGo v

/-- `Default(df, v)` (part_001 lines 165-171). -/
def DefaultGo (df v : GoVal) : GoVal := if IsEmptyGo v then df else v

/-- `Coalesce(v...)` (part_001 lines 155-163): the first truthy argument,
nil when there is none. -/
def CoalesceGo : List GoVal → GoVal
  | [] => .vnil
  | v :: rest => if isTrueGo v then v else CoalesceGo rest

/-! ## Helper lemmas -/

theorem lookupA_insertA_self {α β : Type _} [DecidableEq α]
    (l : List (α × β)) (k : α) (v : β) : lookupA (insertA l k v) k = some v := by
  induction l with
  | nil => simp [insertA, lookupA]
  | cons hd tl ih =>
    obtain ⟨k', v'⟩ := hd
    by_cases h : k = k' <;> simp [insertA, lookupA, h, ih]

theorem lookupA_insertA_ne {α β : Type _} [DecidableEq α]
    (l : List (α × β)) (k k' : α) (v : β) (h : k' ≠ k) :
    lookupA (insertA l k v) k' = lookupA l k' := by
  induction l with
  | nil => simp [insertA, lookupA, h]
  | cons hd tl ih =>
    obtain ⟨k0, v0⟩ := hd
    by_cases hk : k = k0
    · subst hk
      simp [insertA, lookupA, h]
    · by_cases hk' : k' = k0 <;> simp [insertA, lookupA, hk, hk', ih]

theorem lookupA_insertCodes (p : String) (acc : List (Int × String))
    (cs : List Int) (c : Int) :
    lookupA (insertCodes p acc cs) c =
      if c ∈ cs then some p else lookupA acc c := by
  induction cs generalizing acc with
  | nil => simp [insertCodes]
  | cons c0 rest ih =>
    by_cases hc : c = c0
    · subst hc
      by_cases hr : c ∈ rest <;>
        simp [insertCodes, ih, hr, lookupA_insertA_self]
    · simp [insertCodes, ih, hc, lookupA_insertA_ne _ _ _ _ hc]

theorem lookupA_remapFrom_mem (acc : List (Int × String))
    (errs : List (String × List Int)) (c : Int) (p : String) :
    lookupA (remapFrom acc errs) c = some p →
      (∃ codes, (p, codes) ∈ errs ∧ c ∈ codes) ∨ lookupA acc c = some p := by
  induction errs generalizing acc with
  | nil => intro h; exact Or.inr h
  | cons hd rest ih =>
    obtain ⟨p0, codes0⟩ := hd
    intro h
    rcases ih _ h with hrest | hacc
    · obtain ⟨codes, hmem, hc⟩ := hrest
      exact Or.inl ⟨codes, List.mem_cons_of_mem _ hmem, hc⟩
    · rw [lookupA_insertCodes] at hacc
      by_cases hc : c ∈ codes0
      · simp [hc] at hacc
        exact Or.inl ⟨codes0, by simp [hacc], hc⟩
      · simp [hc] at hacc
        exact Or.inr hacc

theorem lookupA_remapFrom_isSome (acc : List (Int × String))
    (errs : List (String × List Int)) (c : Int) :
    (lookupA (remapFrom acc errs) c).isSome ↔
      (∃ p codes, (p, codes) ∈ errs ∧ c ∈ codes) ∨ (lookupA acc c).isSome := by
  induction errs generalizing acc with
  | nil => simp [remapFrom]
  | cons hd rest ih =>
    obtain ⟨p0, codes0⟩ := hd
    rw [remapFrom, ih]
    constructor
    · rintro (⟨p, codes, hmem, hc⟩ | hacc)
      · exact Or.inl ⟨p, codes, List.mem_cons_of_mem _ hmem, hc⟩
      · rw [lookupA_insertCodes] at hacc
        by_cases hc : c ∈ codes0
        · exact Or.inl ⟨p0, codes0, by simp, hc⟩
        · simp [hc] at hacc
          exact Or.inr hacc
    · rintro (⟨p, codes, hmem, hc⟩ | hacc)
      · rcases List.mem_cons.mp hmem with heq | hmem'
        · obtain ⟨hp, hcodes⟩ := Prod.mk.injEq .. ▸ heq
          right
          rw [lookupA_insertCodes]
          simp [hcodes ▸ hc]
        · exact Or.inl ⟨p, codes, hmem', hc⟩
      · right
        rw [lookupA_insertCodes]
        split <;> simp_all

/-- helper for C2 -/
theorem lookupA_foldl_addIfMissing {V : Type} (site acc : List (String × V))
    (k : String) :
    lookupA (site.foldl addIfMissing acc) k =
      (lookupA acc k).or (lookupA site k) := by
  induction site generalizing acc with
  | nil => simp [lookupA]
  | cons hd rest ih =>
    obtain ⟨k0, v0⟩ := hd
    rw [List.foldl_cons, ih]
    by_cases hk : k = k0
    · subst hk
      cases hacc : lookupA acc k
      · simp [addIfMissing, hacc, lookupA_insertA_self, lookupA]
      · simp [addIfMissing, hacc, lookupA]
    · cases hacc0 : lookupA acc k0
      · simp [addIfMissing, hacc0, lookupA_insertA_ne _ _ _ _ hk, lookupA, hk]
      · simp [addIfMissing, hacc0, lookupA, hk]

/-- helper for C5 -/
theorem coalesceGo_eq_find (vs : List GoVal) :
    CoalesceGo vs = (vs.find? isTrueGo).getD .vnil := by
  induction vs with
  | nil => rfl
  | cons v rest ih =>
    cases hv : isTrueGo v
    · have hfind : (v :: rest).find? isTrueGo = rest.find? isTrueGo :=
        List.find?_cons_of_neg _ (by simp [hv])
      simp [CoalesceGo, hv, hfind, ih]
    · have hfind : (v :: rest).find? isTrueGo = some v :=
        List.find?_cons_of_pos _ hv
      simp [CoalesceGo, hv, hfind]

/-- helper for C4: a single-argument eq call reduces to one step -/
theorem eqGo_single (v1 v2 : GoVal) (hcmp : goComparable v1 = true) :
    eqGo v1 [v2] =
      match eqStep v1 v2 with
      | .error e => .error e
      | .ok b => .ok b := by
  rw [eqGo, if_neg (by simp [hcmp]), if_neg (by simp)]
  rw [eqLoop]
  rcases h : eqStep v1 v2 with e | b
  · rfl
  · cases b <;> rfl

/-- helper for C6: a successful fresh parse stores the result in the cache -/
theorem parseTemplateFresh_ok {V H T E : Type}
    (pc : String → Except E T)
    (pf : T → String → String → List String → Except E T)
    (site : TplSite V H T) (name : String) (t2 : T)
    (cache2 : List (String × T)) (flag : Bool)
    (h : parseTemplateFresh pc pf site name = (.ok t2, cache2, flag)) :
    cache2 = insertA site.templates name t2 ∧ flag = true := by
  rw [parseTemplateFresh] at h
  rcases hpage : lookupA site.pages name with _ | page <;> rw [hpage] at h
  · simp at h
  · simp only [] at h
    split at h
    · simp at h
    · split at h
      · simp at h
      · split at h
        · simp at h
        · simp only [Prod.mk.injEq, Except.ok.injEq] at h
          obtain ⟨ht, hc, hf⟩ := h
          subst ht
          exact ⟨hc.symm, hf.symm⟩

theorem head_dropWhile_false {α : Type _} (p : α → Bool) (l : List α) (c : α)
    (rest : List α) (h : l.dropWhile p = c :: rest) : p c = false := by
  induction l with
  | nil => simp at h
  | cons a as ih =>
    rw [List.dropWhile_cons] at h
    by_cases ha : p a = true
    · rw [if_pos ha] at h
      exact ih h
    · rw [if_neg ha] at h
      injection h with h1 h2
      subst h1
      simpa using ha

theorem pathBase_ne_empty (p : String) : ¬pathBase p = "" := by
  simp only [pathBase]
  by_cases hp : p = ""
  · simp [hp]
  · rw [if_neg hp]
    rcases hr : p.toList.reverse.dropWhile (· = '/') with _ | ⟨c, rest⟩
    · simp
    · rw [if_neg (by simp)]
      have hc : (fun x => decide (x = '/')) c = false :=
        head_dropWhile_false (fun x => decide (x = '/')) p.toList.reverse c rest hr
      intro hcontra
      have h3 : ((c :: rest).takeWhile (· ≠ '/')).reverse = [] := by
        have h4 := congrArg String.toList hcontra
        simpa using h4
      rw [List.takeWhile_cons_of_pos (by simpa using hc)] at h3
      simp at h3

theorem compsAux_all_slash (l : List Char) (acc : List (List Char))
    (hl : ∀ c ∈ l, c = '/') : compsAux [] acc l = acc.reverse := by
  induction l generalizing acc with
  | nil => rfl
  | cons c rest ih =>
    have hc : c = '/' := hl c (by simp)
    rw [compsAux, if_pos hc, if_pos rfl]
    exact ih acc (fun c' hc' => hl c' (by simp [hc']))

theorem pathClean_all_slash (p : String) (hp : ¬p = "")
    (hl : ∀ c ∈ p.toList, c = '/') : pathClean p = "/" := by
  rw [pathClean, if_neg hp]
  have hhead : p.toList.head? = some '/' := by
    rcases hc : p.toList with _ | ⟨c, rest⟩
    · exact absurd (by simpa using congrArg String.mk hc) hp
    · have : c = '/' := hl c (by rw [hc]; exact List.mem_cons_self c rest)
      simp [this]
  simp only [hhead]
  rw [compsOf, compsAux_all_slash _ _ hl]
  rfl

theorem pathBase_all_slash (p : String) (hp : ¬p = "")
    (hl : ∀ c ∈ p.toList, c = '/') : pathBase p = "/" := by
  simp only [pathBase]
  rw [if_neg hp]
  have hnil : p.toList.reverse.dropWhile (· = '/') = [] := by
    rw [List.dropWhile_eq_nil_iff]
    intro c hc
    simp [hl c (List.mem_reverse.mp hc)]
  rw [hnil]
  simp

theorem pathBase_eq_slash_all_slash (p : String) (hb : pathBase p = "/") :
    ¬p = "" ∧ ∀ c ∈ p.toList, c = '/' := by
  simp only [pathBase] at hb
  by_cases hp : p = ""
  · rw [if_pos hp] at hb
    simp at hb
  · rw [if_neg hp] at hb
    refine ⟨hp, ?_⟩
    rcases hr : p.toList.reverse.dropWhile (· = '/') with _ | ⟨c, rest⟩
    · intro c hc
      have := List.dropWhile_eq_nil_iff.mp hr c (List.mem_reverse.mpr hc)
      simpa using this
    · exfalso
      rw [hr, if_neg (by simp)] at hb
      have hc : (fun x => decide (x = '/')) c = false :=
        head_dropWhile_false (fun x => decide (x = '/')) p.toList.reverse c rest hr
      have hlist : ((c :: rest).takeWhile (· ≠ '/')).reverse = ['/'] := by
        have h4 := congrArg String.toList hb
        simpa using h4
      have hmem : '/' ∈ (c :: rest).takeWhile (· ≠ '/') := by
        rw [← List.mem_reverse, hlist]
        exact List.mem_singleton.mpr rfl
      have := List.mem_takeWhile_imp hmem
      simp at this

theorem pathDir_of_base_slash (p : String) (hb : pathBase p = "/") :
    pathDir p = "/" := by
  obtain ⟨hp, hl⟩ := pathBase_eq_slash_all_slash p hb
  rw [pathDir]
  have hsplit : pathSplitDir p = p := by
    rw [pathSplitDir]
    have hkeep : p.toList.reverse.dropWhile (· ≠ '/') = p.toList.reverse := by
      rcases hc : p.toList.reverse with _ | ⟨c, rest⟩
      · simp
      · rw [List.dropWhile_cons_of_neg]
        have : c = '/' := hl c (List.mem_reverse.mp (by rw [hc]; exact List.mem_cons_self c rest))
        simp [this]
    rw [hkeep, List.reverse_reverse]
    rfl
  rw [hsplit]
  exact pathClean_all_slash p hp hl

theorem staticFileDirName_eq_spec (p : String) :
    staticFileDirName p = (specStaticDir p, specStaticName p) := by
  simp only [staticFileDirName, specStaticDir, specStaticName]
  by_cases hb : pathBase p = "/"
  · have hd : pathDir p = "/" := pathDir_of_base_slash p hb
    simp [hd, hb]
  · by_cases hd : pathDir p = "/"
    · simp [hd, hb, pathBase_ne_empty p]
    · simp [hd, hb, pathBase_ne_empty p]

theorem staticFilePath_eq_spec (root p : String) :
    staticFilePath root p = specStaticPath root p := by
  rw [staticFilePath, specStaticPath, staticFileDirName_eq_spec]

/-! ## Claim theorems -/

/-- C1: after `NewSite` builds the internal code-to-page table, a status
code is a key of the table exactly when it occurs in some page's `Errors`
list, and it then maps to such a page; the default `Errors` table maps 404
to the not_found page and 500 to the error page; `handleError` renders the
page the table selects for the incoming error's code and falls back to the
error page for codes not in the table. -/

theorem c1_error_table_inverse :
    (∀ (errs : List (String × List Int)) (c : Int),
      (lookupA (remapErrors errs) c).isSome ↔
        ∃ p codes, (p, codes) ∈ errs ∧ c ∈ codes)
    ∧ (∀ (errs : List (String × List Int)) (c : Int) (p : String),
        lookupA (remapErrors errs) c = some p →
          ∃ codes, (p, codes) ∈ errs ∧ c ∈ codes)
    ∧ lookupA (remapErrors defaultErrors) 404 = some PageNotFound
    ∧ lookupA (remapErrors defaultErrors) 500 = some PageError
    ∧ (∀ (tbl : List (Int × String)) (err : GoErrInput) (p : String),
        lookupA tbl (ErrorFromErr err).code = some p →
          handleErrorPageName tbl err = p)
    ∧ (∀ (tbl : List (Int × String)) (err : GoErrInput),
        lookupA tbl (ErrorFromErr err).code = none →
          handleErrorPageName tbl err = PageError) := by
  refine ⟨?_, ?_, by decide, by decide, ?_, ?_⟩
  · intro errs c
    rw [remapErrors, lookupA_remapFrom_isSome]
    simp [lookupA]
  · intro errs c p h
    rcases lookupA_remapFrom_mem [] errs c p h with hmem | hacc
    · exact hmem
    · simp [lookupA] at hacc
  · intro tbl err p h
    simp [handleErrorPageName, h]
  · intro tbl err h
    simp [handleErrorPageName, h]

/-- C1 witness: concrete evaluations of the inverse table and of the
handleError page selection. -/

theorem c1_error_table_inverse_witness :
    (lookupA (remapErrors [("maintenance", [503, 502])]) 502).isSome = true
    ∧ handleErrorPageName (remapErrors defaultErrors)
        (.tinyErr (NewError 404 "missing")) = PageNotFound
    ∧ handleErrorPageName (remapErrors defaultErrors) (.plain "boom") =
        PageError := by
  obtain ⟨hiff, -, -, -, hsel, -⟩ := c1_error_table_inverse
  refine ⟨?_, ?_, ?_⟩
  · exact (hiff _ _).mpr ⟨"maintenance", [503, 502], by decide, by decide⟩
  · exact hsel _ _ _ (by decide)
  · exact hsel _ _ _ (by decide)

/-- C2: for a configured page the map-based `getPageMetaData` returns the
page metadata extended with every site-level key the page does not define
(page-defined keys keep the page's value, and no other keys appear); for an
unknown name it returns the site-level metadata unchanged. -/

theorem c2_map_metadata_merge {V H : Type} (siteMeta : List (String × V))
    (pages : List (String × GoPage V H)) (name : String) :
    (∀ page, lookupA pages name = some page →
      ∀ k, lookupA (getPageMetaDataM siteMeta pages name) k =
        (lookupA page.metaData k).or (lookupA siteMeta k))
    ∧ (lookupA pages name = none →
        getPageMetaDataM siteMeta pages name = siteMeta) := by
  constructor
  · intro page hp k
    simp only [getPageMetaDataM, hp]
    exact lookupA_foldl_addIfMissing siteMeta page.metaData k
  · intro hp
    simp [getPageMetaDataM, hp]

/-- C2 witness: a concrete page keeps its own "title", inherits the site
"lang", and an undefined key is absent. -/

theorem c2_map_metadata_merge_witness :
    lookupA (getPageMetaDataM [("title", "Site"), ("lang", "en")]
      [("home", ⟨"/", "", [], [("title", "Home")], false, "", "", none,
        (none : Option Nat), false⟩)] "home") "title" = some "Home"
    ∧ lookupA (getPageMetaDataM [("title", "Site"), ("lang", "en")]
      [("home", ⟨"/", "", [], [("title", "Home")], false, "", "", none,
        (none : Option Nat), false⟩)] "home") "lang" = some "en"
    ∧ lookupA (getPageMetaDataM [("title", "Site"), ("lang", "en")]
      [("home", ⟨"/", "", [], [("title", "Home")], false, "", "", none,
        (none : Option Nat), false⟩)] "home") "other" = none := by
  obtain ⟨hsome, -⟩ := c2_map_metadata_merge [("title", "Site"), ("lang", "en")]
    [("home", ⟨"/", "", [], [("title", "Home")], false, "", "", none,
      (none : Option Nat), false⟩)] "home"
  have h := hsome ⟨"/", "", [], [("title", "Home")], false, "", "", none,
    (none : Option Nat), false⟩ (by decide)
  refine ⟨?_, ?_, ?_⟩
  · rw [h "title"]; decide
  · rw [h "lang"]; decide
  · rw [h "other"]; decide

/-- C3: in the struct-based merged metadata of a configured page, Domain,
SiteName and BaseURL always equal the site-level values, while Title,
Author, Description, Lang, CanonicalURL, Type, Image, Version and KeyWords
equal the page-level value when it is non-empty and the site-level value
otherwise. -/

theorem c3_struct_metadata_merge (siteMeta : MetaDataS)
    (pages : List (String × PageS)) (name : String) (page : PageS)
    (hp : lookupA pages name = some page) :
    (getPageMetaDataS siteMeta pages name).domain = siteMeta.domain
    ∧ (getPageMetaDataS siteMeta pages name).siteName = siteMeta.siteName
    ∧ (getPageMetaDataS siteMeta pages name).baseURL = siteMeta.baseURL
    ∧ (getPageMetaDataS siteMeta pages name).title =
        (if page.metaData.title = "" then siteMeta.title else page.metaData.title)
    ∧ (getPageMetaDataS siteMeta pages name).author =
        (if page.metaData.author = "" then siteMeta.author else page.metaData.author)
    ∧ (getPageMetaDataS siteMeta pages name).description =
        (if page.metaData.description = "" then siteMeta.description
         else page.metaData.description)
    ∧ (getPageMetaDataS siteMeta pages name).lang =
        (if page.metaData.lang = "" then siteMeta.lang else page.metaData.lang)
    ∧ (getPageMetaDataS siteMeta pages name).canonicalURL =
        (if page.metaData.canonicalURL = "" then siteMeta.canonicalURL
         else page.metaData.canonicalURL)
    ∧ (getPageMetaDataS siteMeta pages name).type =
        (if page.metaData.type = "" then siteMeta.type else page.metaData.type)
    ∧ (getPageMetaDataS siteMeta pages name).image =
        (if page.metaData.image = "" then siteMeta.image else page.metaData.image)
    ∧ (getPageMetaDataS siteMeta pages name).version =
        (if page.metaData.version = "" then siteMeta.version else page.metaData.version)
    ∧ (getPageMetaDataS siteMeta pages name).keyWords =
        (if page.metaData.keyWords = [] then siteMeta.keyWords
         else page.metaData.keyWords) := by
  simp only [getPageMetaDataS, hp, mergeMetaDataS]
  refine ⟨trivial, trivial, trivial, trivial, trivial, trivial, trivial,
    trivial, trivial, trivial, trivial, ?_⟩
  by_cases hk : page.metaData.keyWords = [] <;> simp [hk]

/-- C3 witness: a concrete page keeps its non-empty Title, its Domain is
overridden by the site, and its empty Author falls back to the site. -/

theorem c3_struct_metadata_merge_witness :
    (getPageMetaDataS
      ⟨"v1", "en", "Site", "SiteTitle", "ex.com", "https://ex.com", "", ["k"],
        "siteAuthor", "WebSite", "", "site words"⟩
      [("home", ⟨⟨"", "", "pageName", "PageTitle", "page.com", "pb", "", [],
        "", "", "img.png", ""⟩⟩)]
      "home").title = "PageTitle"
    ∧ (getPageMetaDataS
      ⟨"v1", "en", "Site", "SiteTitle", "ex.com", "https://ex.com", "", ["k"],
        "siteAuthor", "WebSite", "", "site words"⟩
      [("home", ⟨⟨"", "", "pageName", "PageTitle", "page.com", "pb", "", [],
        "", "", "img.png", ""⟩⟩)]
      "home").domain = "ex.com"
    ∧ (getPageMetaDataS
      ⟨"v1", "en", "Site", "SiteTitle", "ex.com", "https://ex.com", "", ["k"],
        "siteAuthor", "WebSite", "", "site words"⟩
      [("home", ⟨⟨"", "", "pageName", "PageTitle", "page.com", "pb", "", [],
        "", "", "img.png", ""⟩⟩)]
      "home").author = "siteAuthor" := by
  obtain ⟨hd, -, -, ht, ha, -⟩ := c3_struct_metadata_merge
    ⟨"v1", "en", "Site", "SiteTitle", "ex.com", "https://ex.com", "", ["k"],
      "siteAuthor", "WebSite", "", "site words"⟩
    [("home", ⟨⟨"", "", "pageName", "PageTitle", "page.com", "pb", "", [],
      "", "", "img.png", ""⟩⟩)]
    "home"
    ⟨⟨"", "", "pageName", "PageTitle", "page.com", "pb", "", [], "", "",
      "img.png", ""⟩⟩
    (by decide)
  refine ⟨?_, hd, ?_⟩
  · rw [ht]; decide
  · rw [ha]; decide

/-- C4: `eq` compares its first argument against each further argument and
returns true as soon as one is equal: same-kind basic values compare by
their primitive value; a signed and an unsigned integer compare equal
exactly when the signed value is non-negative and the magnitudes agree; any
other mix of basic kinds is an incompatible-types error; a call with no
second argument is a missing-argument error; and `EqualAny(v, values...)`
is true iff `eq(v, val)` succeeds with true for some `val`. -/

theorem c4_eq_equal_any :
    (∀ b1 b2 : Bool, eqGo (.vbool b1) [.vbool b2] = .ok (decide (b1 = b2)))
    ∧ (∀ i1 i2 : Int, eqGo (.vint i1) [.vint i2] = .ok (decide (i1 = i2)))
    ∧ (∀ u1 u2 : Nat, eqGo (.vuint u1) [.vuint u2] = .ok (decide (u1 = u2)))
    ∧ (∀ f1 f2 : ℚ, eqGo (.vfloat f1) [.vfloat f2] = .ok (decide (f1 = f2)))
    ∧ (∀ r1 i1 r2 i2 : ℚ, eqGo (.vcomplex r1 i1) [.vcomplex r2 i2] =
        .ok (decide (r1 = r2 ∧ i1 = i2)))
    ∧ (∀ s1 s2 : String, eqGo (.vstring s1) [.vstring s2] = .ok (decide (s1 = s2)))
    ∧ (∀ (i : Int) (u : Nat), eqGo (.vint i) [.vuint u] =
        .ok (decide (0 ≤ i ∧ i.toNat = u)))
    ∧ (∀ (u : Nat) (i : Int), eqGo (.vuint u) [.vint i] =
        .ok (decide (0 ≤ i ∧ u = i.toNat)))
    ∧ (∀ v1 v2 : GoVal, ¬basicKind v1 = .invalidKind → ¬basicKind v2 = .invalidKind →
        ¬basicKind v1 = basicKind v2 →
        ¬(basicKind v1 = .intKind ∧ basicKind v2 = .uintKind) →
        ¬(basicKind v1 = .uintKind ∧ basicKind v2 = .intKind) →
        eqGo v1 [v2] = .error .badComparison)
    ∧ (∀ v : GoVal, goComparable v = true → eqGo v [] = .error .noComparison)
    ∧ (∀ (v : GoVal) (vals : List GoVal),
        EqualAny v vals = true ↔ ∃ val, val ∈ vals ∧ eqGo v [val] = .ok true) := by
  refine ⟨?_, ?_, ?_, ?_, ?_, ?_, ?_, ?_, ?_, ?_, ?_⟩
  · intro b1 b2
    rw [eqGo_single (.vbool b1) (.vbool b2) rfl]
    cases hb : decide (b1 = b2) <;> simp_all [eqStep]
  · intro i1 i2
    rw [eqGo_single (.vint i1) (.vint i2) rfl]
    cases hb : decide (i1 = i2) <;> simp_all [eqStep]
  · intro u1 u2
    rw [eqGo_single (.vuint u1) (.vuint u2) rfl]
    cases hb : decide (u1 = u2) <;> simp_all [eqStep]
  · intro f1 f2
    rw [eqGo_single (.vfloat f1) (.vfloat f2) rfl]
    cases hb : decide (f1 = f2) <;> simp_all [eqStep]
  · intro r1 i1 r2 i2
    rw [eqGo_single (.vcomplex r1 i1) (.vcomplex r2 i2) rfl]
    rw [eqStep]
    by_cases hr : r1 = r2 <;> by_cases hi : i1 = i2 <;> simp [hr, hi]
  · intro s1 s2
    rw [eqGo_single (.vstring s1) (.vstring s2) rfl]
    cases hb : decide (s1 = s2) <;> simp_all [eqStep]
  · intro i u
    rw [eqGo_single (.vint i) (.vuint u) rfl]
    rw [eqStep]
    by_cases hge : 0 ≤ i <;> by_cases heq : i.toNat = u <;> simp [hge, heq]
  · intro u i
    rw [eqGo_single (.vuint u) (.vint i) rfl]
    rw [eqStep]
    by_cases hge : 0 ≤ i <;> by_cases heq : u = i.toNat <;> simp [hge, heq]
  · intro v1 v2 h1 h2 hne hiu hui
    have hcmp : goComparable v1 = true := by
      cases v1 <;> simp_all [basicKind, goComparable]
    rw [eqGo_single _ _ hcmp]
    cases v1 <;> cases v2 <;>
      simp_all [basicKind, eqStep, goComparable]
  · intro v hcmp
    rw [eqGo, if_neg (by simp [hcmp])]
    simp
  · intro v vals
    rw [EqualAny, List.any_eq_true]
    constructor
    · rintro ⟨val, hval, htrue⟩
      refine ⟨val, hval, ?_⟩
      rcases h : eqGo v [val] with e | b
      · rw [h] at htrue; simp at htrue
      · rw [h] at htrue
        cases b
        · simp at htrue
        · rfl
    · rintro ⟨val, hval, htrue⟩
      exact ⟨val, hval, by rw [htrue]⟩

/-- C4 witness: concrete cross-sign comparisons, an incompatible pair, a
missing argument, and an `EqualAny` call that skips an error. -/

theorem c4_eq_equal_any_witness :
    eqGo (.vint 7) [.vuint 7] = .ok true
    ∧ eqGo (.vint (-1)) [.vuint 18446744073709551615] = .ok false
    ∧ eqGo (.vstring "a") [.vint 1] = .error .badComparison
    ∧ eqGo (.vbool true) [] = .error .noComparison
    ∧ EqualAny (.vint 3) [.vstring "a", .vint 3] = true := by
  obtain ⟨-, hii, -, -, -, -, hiu, -, hbad, hno, hany⟩ := c4_eq_equal_any
  refine ⟨?_, ?_, ?_, ?_, ?_⟩
  · rw [hiu 7 7]; simp
  · rw [hiu (-1) 18446744073709551615]; simp
  · exact hbad (.vstring "a") (.vint 1) (by decide) (by decide) (by decide)
      (by decide) (by decide)
  · exact hno _ rfl
  · refine (hany _ _).mpr ⟨.vint 3, by decide, ?_⟩
    rw [hii 3 3]; simp

/-- C5: `IsEmpty` is the negation of template-truth, so `IsEmpty` and
`isTrue` partition all values; `Default(df, v)` returns `df` exactly when
`IsEmpty(v)` holds and `v` otherwise; `Coalesce` returns its first truthy
argument, or nil when none is truthy. -/

theorem c5_is_empty_default_coalesce :
    (∀ v, IsEmptyGo v = !isTrueGo v)
    ∧ (∀ v, IsEmptyGo v = true ↔ isTrueGo v = false)
    ∧ (∀ df v, IsEmptyGo v = true → DefaultGo df v = df)
    ∧ (∀ df v, IsEmptyGo v = false → DefaultGo df v = v)
    ∧ (∀ vs, CoalesceGo vs = (vs.find? isTrueGo).getD .vnil)
    ∧ (∀ vs, (∀ v ∈ vs, isTrueGo v = false) → CoalesceGo vs = .vnil) := by
  refine ⟨fun v => rfl, ?_, ?_, ?_, coalesceGo_eq_find, ?_⟩
  · intro v
    cases hv : isTrueGo v <;> simp [IsEmptyGo, hv]
  · intro df v hv; simp [DefaultGo, hv]
  · intro df v hv; simp [DefaultGo, hv]
  · intro vs hall
    rw [coalesceGo_eq_find]
    have : vs.find? isTrueGo = none := by
      rw [List.find?_eq_none]
      intro v hv
      simp [hall v hv]
    simp [this]

/-- C5 witness: concrete `Default` and `Coalesce` evaluations. -/

theorem c5_is_empty_default_coalesce_witness :
    DefaultGo (.vstring "fallback") (.vstring "") = .vstring "fallback"
    ∧ DefaultGo (.vstring "fallback") (.vint 3) = .vint 3
    ∧ CoalesceGo [.vint 0, .vstring "", .vslice 0] = .vnil := by
  obtain ⟨-, -, hdf, hdv, -, hco⟩ := c5_is_empty_default_coalesce
  refine ⟨hdf _ _ (by decide), hdv _ _ (by decide), hco _ (by decide)⟩

/-- C6: `parseTemplate` returns the cached template without re-parsing for a
cached embedded default page, or for any cached name when Reload is
disabled; otherwise it fails with a 404 "page not found" error when the name
is not configured, fails with a 404 "no templates found" error when the
page's layout files and components are both empty, and on successful parsing
stores the new template in the cache before returning it. -/

theorem c6_parse_template {V H T E : Type}
    (pc : String → Except E T)
    (pf : T → String → String → List String → Except E T)
    (site : TplSite V H T) (name : String) :
    (∀ tpl page, lookupA site.templates name = some tpl →
      lookupA site.pages name = some page → page.embed = true →
      parseTemplate pc pf site name = (.ok tpl, site.templates, false))
    ∧ (∀ tpl, lookupA site.templates name = some tpl → site.reload = false →
        parseTemplate pc pf site name = (.ok tpl, site.templates, false))
    ∧ (lookupA site.pages name = none →
        (lookupA site.templates name = none ∨ site.reload = true) →
        parseTemplate pc pf site name =
          (.error (.tiny (NewError 404 "page not found")), site.templates, false))
    ∧ (∀ page, lookupA site.pages name = some page → page.embed = false →
        (lookupA site.templates name = none ∨ site.reload = true) →
        (lookupA site.layouts page.layout).getD [] ++ page.components = [] →
        parseTemplate pc pf site name =
          (.error (.tiny (NewError 404 "no templates found")), site.templates, false))
    ∧ (∀ t2 cache2, parseTemplate pc pf site name = (.ok t2, cache2, true) →
        cache2 = insertA site.templates name t2) := by
  refine ⟨?_, ?_, ?_, ?_, ?_⟩
  · intro tpl page hc hp hemb
    simp [parseTemplate, hc, hp, hemb]
  · intro tpl hc hre
    simp only [parseTemplate, hc]
    split <;> simp_all
  · intro hp hmiss
    have hfresh : parseTemplateFresh pc pf site name =
        (.error (.tiny (NewError 404 "page not found")), site.templates, false) := by
      rw [parseTemplateFresh, hp]
    rcases hmiss with hnone | hre
    · simp [parseTemplate, hnone, hfresh]
    · rcases hc : lookupA site.templates name with _ | tpl
      · simp [parseTemplate, hc, hfresh]
      · simp [parseTemplate, hc, hp, hre, hfresh]
  · intro page hp hemb hmiss hfiles
    have hfresh : parseTemplateFresh pc pf site name =
        (.error (.tiny (NewError 404 "no templates found")), site.templates, false) := by
      rw [parseTemplateFresh, hp]
      simp only []
      rw [hfiles]
    rcases hmiss with hnone | hre
    · simp [parseTemplate, hnone, hfresh]
    · rcases hc : lookupA site.templates name with _ | tpl
      · simp [parseTemplate, hc, hfresh]
      · simp [parseTemplate, hc, hp, hemb, hre, hfresh]
  · intro t2 cache2 h
    rcases hc : lookupA site.templates name with _ | tpl <;>
      simp only [parseTemplate, hc] at h
    · exact (parseTemplateFresh_ok pc pf site name t2 cache2 true h).1
    · split at h
      · simp at h
      · split at h
        · simp at h
        · exact (parseTemplateFresh_ok pc pf site name t2 cache2 true h).1

/-- C6 witness: an unconfigured page name with an empty cache yields the
404 "page not found" error. -/

theorem c6_parse_template_witness :
    parseTemplate (fun _ => (Except.ok 0 : Except Unit Nat))
      (fun _ _ _ _ => (Except.ok 0 : Except Unit Nat))
      (⟨([] : List (String × GoPage Unit Unit)), [], [], false, "[[", "]]"⟩ :
        TplSite Unit Unit Nat) "home" =
      (.error (.tiny (NewError 404 "page not found")), [], false) := by
  exact (c6_parse_template (fun _ => (Except.ok 0 : Except Unit Nat))
    (fun _ _ _ _ => (Except.ok 0 : Except Unit Nat))
    (⟨[], [], [], false, "[[", "]]"⟩ : TplSite Unit Unit Nat)
    "home").2.2.1 rfl (Or.inl rfl)

/-- C7 counterexample: the request path "/foo/" ends in '/' and matches the
configured pattern, yet the middleware writes "/out/foo/foo.html" rather
than an index.html file, contradicting the claim that a path ending in '/'
uses "index.html". -/

theorem c7_counterexample :
    staticWrites (fun _ _ => true) ["^/foo/$"] "/out" "/foo/" "<p>B</p>" =
      [("/out/foo/foo.html", "<p>B</p>")]
    ∧ ¬("/out/foo/foo.html" = "/out/foo/index.html") := by
  constructor
  · decide
  · decide

/-- C7 amended: for every request the static-generator middleware writes,
for each allowed-pages pattern matching the request path, one file at the
derived output path holding the full captured body, and writes nothing when
no pattern matches; the derived file name is "index.html" only for the root
path (a path of slashes), while any other path - including one ending in
'/' - uses its final segment (after dropping trailing slashes), with
".html" appended when the segment has no extension. -/

theorem c7_static_generator (rmatch : String → String → Bool)
    (pats : List String) (root p body : String) :
    staticWrites rmatch pats root p body =
      (pats.filter fun pat => rmatch pat p).map
        (fun _ => (specStaticPath root p, body))
    ∧ ((∀ pat ∈ pats, rmatch pat p = false) →
        staticWrites rmatch pats root p body = [])
    ∧ (¬p = "" → (∀ c ∈ p.toList, c = '/') → specStaticName p = "index.html")
    ∧ (¬pathBase p = "/" → pathExt (pathBase p) = "" →
        specStaticName p = pathBase p ++ ".html") := by
  have hwrites : staticWrites rmatch pats root p body =
      (pats.filter fun pat => rmatch pat p).map
        (fun _ => (specStaticPath root p, body)) := by
    rw [staticWrites, staticFilePath_eq_spec]
    induction pats with
    | nil => rfl
    | cons pat rest ih =>
      cases hm : rmatch pat p <;>
        simp [List.filterMap_cons, List.filter_cons, hm, ih]
  refine ⟨hwrites, ?_, ?_, ?_⟩
  · intro hall
    rw [hwrites]
    have : pats.filter (fun pat => rmatch pat p) = [] := by
      rw [List.filter_eq_nil_iff]
      intro pat hpat
      simp [hall pat hpat]
    simp [this]
  · intro hp hl
    rw [specStaticName]
    simp [pathBase_all_slash p hp hl]
  · intro hb hext
    rw [specStaticName]
    simp [hb, hext]

/-- C7 witness: no writes without a match, and concrete derived names for
"/" and "/about". -/

theorem c7_static_generator_witness :
    staticWrites (fun _ _ => false) ["^/private/"] "/out" "/private/x" "B" = []
    ∧ specStaticName "/" = "index.html"
    ∧ specStaticName "/about" = "about.html" := by
  obtain ⟨-, hempty, hroot, hext⟩ :=
    c7_static_generator (fun _ _ => false) ["^/private/"] "/out" "/" "B"
  obtain ⟨-, -, -, hext2⟩ :=
    c7_static_generator (fun _ _ => false) ["^/private/"] "/out" "/about" "B"
  refine ⟨?_, ?_, ?_⟩
  · exact (c7_static_generator (fun _ _ => false) ["^/private/"] "/out"
      "/private/x" "B").2.1 (by intro pat hpat; rfl)
  · exact hroot (by decide) (by decide)
  · exact hext2 (by decide) (by decide)

/-- C8: the handler built by `AuthRequired(loginPath, authInfoFunc)` invokes
the wrapped handler iff the request context is authenticated; otherwise it
responds with a 302 Found redirect to the login path carrying the original
request path in the `redirect` query parameter, and the wrapped handler is
never invoked. -/

theorem c8_auth_required {C A R : Type} (loginPath : String)
    (authInfoFunc : C → A × Bool) (h : GoRequest C → R) (r : GoRequest C) :
    ((authInfoFunc r.ctx).2 = true →
      AuthRequired loginPath authInfoFunc h r = .handled (h r))
    ∧ ((authInfoFunc r.ctx).2 = false →
        AuthRequired loginPath authInfoFunc h r =
          .redirect 302 (loginPath ++ "?redirect=" ++ r.urlPath)
        ∧ ∀ x, ¬AuthRequired loginPath authInfoFunc h r = .handled x)
    ∧ ((∃ x, AuthRequired loginPath authInfoFunc h r = .handled x) ↔
        (authInfoFunc r.ctx).2 = true) := by
  refine ⟨?_, ?_, ?_⟩
  · intro hauth; simp [AuthRequired, hauth]
  · intro hauth
    refine ⟨by simp [AuthRequired, hauth], ?_⟩
    intro x
    simp [AuthRequired, hauth]
  · constructor
    · rintro ⟨x, hx⟩
      by_cases hauth : (authInfoFunc r.ctx).2 = true
      · exact hauth
      · rw [AuthRequired] at hx
        simp [eq_false_of_ne_true hauth] at hx
    · intro hauth
      exact ⟨h r, by simp [AuthRequired, hauth]⟩

/-- C8 witness: an unauthenticated request to "/admin" is redirected to the
login path with the original path in the query. -/

theorem c8_auth_required_witness :
    AuthRequired "/login" (fun _ : Unit => ((), false))
      (fun _ => (0 : Nat)) ⟨(), "/admin"⟩ =
      MwResult.redirect 302 "/login?redirect=/admin" := by
  exact ((c8_auth_required "/login" (fun _ => ((), false))
    (fun _ => (0 : Nat)) ⟨(), "/admin"⟩).2.1 rfl).1

/-- C9: `SetDataHandler(name, h)` returns a 404 "page not found" error and
leaves the page table unchanged when `name` is not configured; otherwise it
returns nil and replaces only the `DataHandler` of that page, leaving every
other field of the page and every other page unchanged. -/

theorem c9_set_data_handler {V H : Type} (pages : List (String × GoPage V H))
    (name : String) (h : H) :
    (lookupA pages name = none →
      SetDataHandler pages name h =
        (Except.error (NewError 404 "page not found"), pages))
    ∧ (∀ p, lookupA pages name = some p →
        (SetDataHandler pages name h).1 = Except.ok ()
        ∧ lookupA (SetDataHandler pages name h).2 name =
            some { p with dataHandler := some h }
        ∧ (∀ k, ¬k = name →
            lookupA (SetDataHandler pages name h).2 k = lookupA pages k)) := by
  constructor
  · intro hnone
    simp [SetDataHandler, hnone]
  · intro p hp
    refine ⟨?_, ?_, ?_⟩
    · simp [SetDataHandler, hp]
    · simp [SetDataHandler, hp, lookupA_insertA_self]
    · intro k hk
      simp [SetDataHandler, hp, lookupA_insertA_ne _ _ _ _ hk]

/-- C9 witness: setting a handler on an empty page table fails with the 404
error and leaves the table empty. -/

theorem c9_set_data_handler_witness :
    lookupA ([] : List (String × GoPage Unit Nat)) "home" = none ∧
    SetDataHandler ([] : List (String × GoPage Unit Nat)) "home" 7 =
      (Except.error (NewError 404 "page not found"), []) := by
  refine ⟨rfl, ?_⟩
  exact (c9_set_data_handler [] "home" 7).1 rfl

/-- C10 counterexample: an error whose `Code() uint64` returns 2^63 is
converted to the code -2^63, not 2^63, contradicting the claim that the
returned code always equals the input's own code for uint64. -/

theorem c10_counterexample :
    (ErrorFromErr (.codeUint64 9223372036854775808 "boom")).code =
      -9223372036854775808 ∧
    ¬(ErrorFromErr (.codeUint64 9223372036854775808 "boom")).code =
      ((9223372036854775808 : Nat) : Int) := by
  constructor
  · decide
  · decide

/-- C10 amended: `ErrorFromErr` is total and idempotent on non-nil errors
and always carries the input's message; the returned code equals the input's
own code when the input is already an `Error` or exposes a `Code()` method
returning int32, uint32 or int64; for uint64 and uint codes it equals Go's
`int` conversion of the code - the code itself when it is below 2^63 and the
code minus 2^64 otherwise - and it equals 500 for any other error;
`Code(NewError(c, ...))` equals `c` for every `c`. -/

theorem c10_error_from_err :
    (∀ e : GoErrInput, (ErrorFromErr e).msg = e.message)
    ∧ (∀ err : TinyError, ErrorFromErr (.tinyErr err) = err)
    ∧ (∀ (c : Int) (m : String), (ErrorFromErr (.codeInt32 c m)).code = c)
    ∧ (∀ (c : Nat) (m : String), (ErrorFromErr (.codeUint32 c m)).code = (c : Int))
    ∧ (∀ (c : Int) (m : String), (ErrorFromErr (.codeInt64 c m)).code = c)
    ∧ (∀ (c : Nat) (m : String), c < 2 ^ 63 →
        (ErrorFromErr (.codeUint64 c m)).code = (c : Int))
    ∧ (∀ (c : Nat) (m : String), 2 ^ 63 ≤ c →
        (ErrorFromErr (.codeUint64 c m)).code = (c : Int) - 2 ^ 64)
    ∧ (∀ (c : Nat) (m : String), c < 2 ^ 63 →
        (ErrorFromErr (.codeUint c m)).code = (c : Int))
    ∧ (∀ (c : Nat) (m : String), 2 ^ 63 ≤ c →
        (ErrorFromErr (.codeUint c m)).code = (c : Int) - 2 ^ 64)
    ∧ (∀ m : String, (ErrorFromErr (.plain m)).code = 500)
    ∧ (∀ e : GoErrInput, ErrorFromErr (.tinyErr (ErrorFromErr e)) = ErrorFromErr e)
    ∧ (∀ (c : Int) (m : String), (NewError c m).code = c) := by
  refine ⟨?_, ?_, ?_, ?_, ?_, ?_, ?_, ?_, ?_, ?_, ?_, ?_⟩
  · intro e; cases e <;> rfl
  · intro err; rfl
  · intro c m; rfl
  · intro c m; rfl
  · intro c m; rfl
  · intro c m hc
    simp only [ErrorFromErr, NewError, intOfUint64]
    rw [if_pos (by omega)]
  · intro c m hc
    simp only [ErrorFromErr, NewError, intOfUint64]
    rw [if_neg (by omega)]
  · intro c m hc
    simp only [ErrorFromErr, NewError, intOfUint64]
    rw [if_pos (by omega)]
  · intro c m hc
    simp only [ErrorFromErr, NewError, intOfUint64]
    rw [if_neg (by omega)]
  · intro m; rfl
  · intro e; rfl
  · intro c m; rfl

/-- C10 witness: a uint64 code below 2^63 is preserved and the maximal
uint64 code wraps to -1. -/

theorem c10_error_from_err_witness :
    (ErrorFromErr (.codeUint64 404 "gone")).code = 404 ∧
    (ErrorFromErr (.codeUint 18446744073709551615 "big")).code = -1 := by
  obtain ⟨-, -, -, -, -, h64, -, -, hbig, -, -, -⟩ := c10_error_from_err
  constructor
  · exact h64 404 "gone" (by norm_num)
  · have := hbig 18446744073709551615 "big" (by norm_num)
    rw [this]; norm_num
